import Mathlib

/-!
Verification development for the HymoFS LKM management core
(`userspace/ksud/src/hymo/core/lkm.cpp` of YukiSU).

The C++ core is shallowly embedded:

* Kernel release strings are `List Char`; `std::string::find`,
  `substr`, and friends are translated as executable list functions.
* `get_current_kmi`, `lkm_load`, `lkm_unload`, `lkm_get_autoload` are
  translated statement by statement.  External effects (the status
  probe, `mkstemp`, `copy_asset_to_file`, the module syscalls, the
  `rmmod` child process) are inputs drawn from an environment record,
  and every performed module-management operation is recorded in an
  explicit event trace so that "performs no syscall" style properties
  can be stated.
* The global `g_lkm_last_error` is threaded explicitly: each operation
  receives the previous value and returns the final value.
-/

namespace Hymo

/-- Translation of `std::string::find(char)` over `List Char`: index of the
first occurrence of `c`, or `none` (npos). -/
def strFind (c : Char) : List Char → Option Nat
  | [] => none
  | x :: xs => if x = c then some 0 else (strFind c xs).map (· + 1)

/-- Translation of `std::string::find(char, pos)`: search starting at
position `i`, returning an absolute index. A start beyond the end finds
nothing, as in C++. -/
def strFindFrom (c : Char) (s : List Char) (i : Nat) : Option Nat :=
  (strFind c (s.drop i)).map (· + i)

/-- Translation of `std::string::find(const char*)`: index of the first
occurrence of the pattern `pat` as a contiguous substring. -/
def strFindSub (pat : List Char) : List Char → Option Nat
  | [] => if pat.isEmpty then some 0 else none
  | x :: xs => if pat.isPrefixOf (x :: xs) then some 0 else (strFindSub pat xs).map (· + 1)

/-- Embedding of `get_current_kmi` (lkm.cpp lines 188-220) as a function of
the kernel release string it reads (the sysfs value, falling back to
`uname` when that is empty; the I/O prologue is the argument here).
Faithful steps: first dot, second dot or end, `major_minor` prefix,
`-android` marker, the android version up to the next `-`, and the final
concatenation. -/
def get_current_kmi (full_version : List Char) : List Char :=
  match strFind '.' full_version with
  | none => []
  | some dot1 =>
    let dot2 := (strFindFrom '.' full_version (dot1 + 1)).getD full_version.length
    let major_minor := full_version.take dot2
    match strFindSub ("-android".data) full_version with
    | none => []
    | some android_pos =>
      let ver_start := android_pos + 8
      let ver_end := (strFindFrom '-' full_version ver_start).getD full_version.length
      let android_ver := (full_version.drop ver_start).take (ver_end - ver_start)
      "android".data ++ android_ver ++ '-' :: major_minor

/-- Spec-side notion used by the shape claim: splitting a string at a
separator character, in the usual fold-right fashion (never empty). -/
def splitOnChar (c : Char) : List Char → List (List Char)
  | [] => [[]]
  | x :: xs =>
    match splitOnChar c xs with
    | [] => [[]]
    | y :: ys => if x = c then [] :: y :: ys else (x :: y) :: ys

/-- Spec-side notion: the first two separator-separated components of `s`,
rejoined with the separator (or `s` itself when there is at most one
component). -/
def firstTwoSepComponents (c : Char) (s : List Char) : List Char :=
  match splitOnChar c s with
  | a :: b :: _ => a ++ c :: b
  | _ => s

/-- Errno values distinguished by lkm.cpp. -/
inductive Errno
  | EAGAIN | EBUSY | EPERM | ENOENT | ENOSYS | EEXIST | ENOMEM | EINVAL
deriving DecidableEq, Repr

/-- Linux/bionic `strerror` text for the modelled errno values, as it is
spliced into the error strings by lkm.cpp. -/
def strerror : Errno → String
  | .EAGAIN => "Resource temporarily unavailable"
  | .EBUSY => "Device or resource busy"
  | .EPERM => "Operation not permitted"
  | .ENOENT => "No such file or directory"
  | .ENOSYS => "Function not implemented"
  | .EEXIST => "File exists"
  | .ENOMEM => "Cannot allocate memory"
  | .EINVAL => "Invalid argument"

/-- Outcome of one raw syscall: returned 0, or failed with an errno. -/
inductive SyscallRes
  | ok
  | err (e : Errno)
deriving DecidableEq, Repr

/-- Events on the syscall/process layer that lkm.cpp touches; operations
record their events in order. The status probe (`lkm_is_loaded`, a
HymoFS session query) is environment input, not an event, matching the
spec distinction between the Status probe and the syscall layer. -/
inductive SysEvent
  | openFile (path : String)
  | finitModule (path params : String)
  | initModule (path params : String)
  | deleteModule (name : String)
  | execRmmod (name : String)
  | sleepMs (n : Nat)
  | mkstempCall
  | unlinkFile (path : String)
  | hymoSetEnabled (b : Bool)
  | hymoClearRules
  | hymoReleaseConnection
deriving DecidableEq, Repr

/-- Environment for `load_module_via_init` (lkm.cpp lines 48-99): whether
open/fstat/malloc succeed, whether the EINTR-retrying read loop completes,
and the `init_module` syscall outcome. -/
structure InitEnv where
  openOk : Bool
  fstatOk : Bool
  mallocOk : Bool
  readOk : Bool
  initRes : SyscallRes
deriving DecidableEq, Repr

/-- Embedding of `load_module_via_init` (lkm.cpp lines 48-99). Failures
before the syscall emit only the `open` event; `EEXIST` from
`init_module` is success ("module already loaded"). No path here touches
`g_lkm_last_error` (only `LOG_ERROR`). -/
def load_module_via_init (env : InitEnv) (koPath params : String) :
    Bool × List SysEvent :=
  if env.openOk = false then (false, [])
  else if env.fstatOk = false then (false, [.openFile koPath])
  else if env.mallocOk = false then (false, [.openFile koPath])
  else if env.readOk = false then (false, [.openFile koPath])
  else
    match env.initRes with
    | .ok => (true, [.openFile koPath, .initModule koPath params])
    | .err e =>
      if e = .EEXIST then (true, [.openFile koPath, .initModule koPath params])
      else (false, [.openFile koPath, .initModule koPath params])

/-- Environment for `load_module_via_finit` (lkm.cpp lines 101-122). -/
structure FinitEnv where
  openOk : Bool
  finitRes : SyscallRes
  initEnv : InitEnv
deriving DecidableEq, Repr

/-- Embedding of `load_module_via_finit` (lkm.cpp lines 101-122): open the
image, run `finit_module`; on `ENOSYS` fall back to
`load_module_via_init`, on `EEXIST` report success. No path here touches
`g_lkm_last_error` (only `LOG_ERROR`/`LOG_WARN`). -/
def load_module_via_finit (env : FinitEnv) (koPath params : String) :
    Bool × List SysEvent :=
  if env.openOk = false then (false, [])
  else
    match env.finitRes with
    | .ok => (true, [.openFile koPath, .finitModule koPath params])
    | .err e =>
      if e = .ENOSYS then
        let r := load_module_via_init env.initEnv koPath params
        (r.1, .openFile koPath :: .finitModule koPath params :: r.2)
      else if e = .EEXIST then (true, [.openFile koPath, .finitModule koPath params])
      else (false, [.openFile koPath, .finitModule koPath params])

/-- Legacy installed module path `LKM_KO` from `defs.hpp`. Modelled from
the spec: defs.hpp is not under src; the claims depend only on the
identity of this fixed path, never on its value. -/
def LKM_KO : String := "/data/adb/hymofs/hymofs_lkm.ko"

/-- Module parameter string built by `lkm_load`/`snprintf`, with
`HYMO_SYSCALL_NR = 142`. -/
def hymoParams : String := "hymo_syscall_nr=142"

/-- Environment of one `lkm_load` invocation: the status probe result,
the first line of the KMI override file (empty when absent), the kernel
release string after the sysfs/uname fallback, and the outcomes of
`create_directories`, `mkstemp`, `copy_asset_to_file` and the load
syscalls. -/
structure LoadEnv where
  isLoaded : Bool
  kmiOverride : String
  kernelRelease : List Char
  ensureBaseDirOk : Bool
  mkstempRes : Option String
  copyAssetOk : Bool
  legacyExists : Bool
  finitEnv : FinitEnv
deriving DecidableEq, Repr

/-- Result of one load/unload operation: the returned boolean, the final
value of `g_lkm_last_error`, and the ordered event trace. -/
structure OpResult where
  ok : Bool
  lastError : String
  trace : List SysEvent
deriving DecidableEq, Repr

/-- The KMI the loader uses (lkm.cpp lines 270-273): the override file
first, else `get_current_kmi`. -/
def loadKmi (env : LoadEnv) : String :=
  if env.kmiOverride = "" then String.mk (get_current_kmi env.kernelRelease)
  else env.kmiOverride

/-- Embedding of `lkm_load` (lkm.cpp lines 263-313). `prevErr` is the
value of `g_lkm_last_error` at entry; the first statement overwrites it
with the empty string, so the result never depends on `prevErr`.
Faithful sequence: probe short-circuit, KMI resolution (override wins),
asset extraction into a mkstemp file with unlink on copy failure, legacy
path fallback, the "no matching module found" failure, the finit load,
and unlink of the temp image when one was used. -/
def lkm_load (prevErr : String) (env : LoadEnv) : OpResult :=
  -- set_lkm_last_error("")
  let _ := prevErr
  if env.isLoaded then { ok := true, lastError := "", trace := [] }
  else
    let kmi := loadKmi env
    let extract : Option String × List SysEvent :=
      if kmi = "" then (none, [])
      else if env.ensureBaseDirOk = false then (none, [])
      else
        match env.mkstempRes with
        | none => (none, [.mkstempCall])
        | some tmp =>
          if env.copyAssetOk then (some tmp, [.mkstempCall])
          else (none, [.mkstempCall, .unlinkFile tmp])
    let koPath : Option String :=
      match extract.1 with
      | some p => some p
      | none => if env.legacyExists then some LKM_KO else none
    match koPath with
    | none =>
      { ok := false
        lastError := "no matching module found for " ++ kmi
        trace := extract.2 }
    | some p =>
      let r := load_module_via_finit env.finitEnv p hymoParams
      let cleanup : List SysEvent := if p = LKM_KO then [] else [.unlinkFile p]
      { ok := r.1, lastError := "", trace := extract.2 ++ r.2 ++ cleanup }

/-- True when the errno is the transient-busyness class retried by the
unload loop (lkm.cpp line 337). -/
def isBusyErrno (e : Errno) : Bool := e = .EAGAIN || e = .EBUSY

/-- True when a delete_module outcome is a transient-busy failure. -/
def isBusyRes : SyscallRes → Bool
  | .ok => false
  | .err e => isBusyErrno e

/-- Error string set by `unload_module_via_syscall` on failure
(lkm.cpp line 129). -/
def deleteErrMsg (e : Errno) : String :=
  "delete_module hymofs_lkm failed: " ++ strerror e

/-- Embedding of the retry loop of `lkm_unload` (lkm.cpp lines 333-341).
`i` is the attempt index, `fuel` the remaining iterations (5 at the
top), `err` the current `g_lkm_last_error`. Success returns at once; a
busy errno sleeps 120ms and retries (also after the final attempt, as in
the C++ loop); any other errno breaks out. Returns (returned-early,
final error, events). -/
def unloadAttempts (deleteRes : Nat → SyscallRes) (err : String) :
    Nat → Nat → Bool × String × List SysEvent
  | _, 0 => (false, err, [])
  | i, fuel + 1 =>
    match deleteRes i with
    | .ok => (true, err, [.deleteModule "hymofs_lkm"])
    | .err e =>
      let errNow := deleteErrMsg e
      if isBusyErrno e then
        let rest := unloadAttempts deleteRes errNow (i + 1) fuel
        (rest.1, rest.2.1, .deleteModule "hymofs_lkm" :: .sleepMs 120 :: rest.2.2)
      else
        (false, errNow, [.deleteModule "hymofs_lkm"])

/-- Glibc `WIFEXITED` on a wait status. -/
def WIFEXITED (rc : Nat) : Bool := rc % 128 = 0

/-- Glibc `WEXITSTATUS` on a wait status. -/
def WEXITSTATUS (rc : Nat) : Nat := rc / 256 % 256

/-- Error string set by `unload_module_via_rmmod` on a non-zero exit
(lkm.cpp lines 147-149). -/
def rmmodFailMsg (rc : Nat) : String :=
  "rmmod hymofs_lkm failed, wait_status=" ++ toString rc ++ ", exit_code=" ++
    (if WIFEXITED rc then toString (WEXITSTATUS rc) else "signal")

/-- Embedding of `unload_module_via_rmmod` (lkm.cpp lines 136-152).
`rmmodRc` is the `std::system` result: `none` for -1 (exec failure),
`some rc` for a wait status. Success leaves `g_lkm_last_error` (the
`err` argument) untouched; failures overwrite it. -/
def unload_module_via_rmmod (rmmodRc : Option Nat) (err : String) : Bool × String :=
  match rmmodRc with
  | none => (false, "failed to exec rmmod for hymofs_lkm")
  | some rc =>
    if WIFEXITED rc && (WEXITSTATUS rc == 0) then (true, err)
    else (false, rmmodFailMsg rc)

/-- Substring test on `String`, the `find(...) != npos` checks of
lkm.cpp lines 346-347. -/
def strContains (s pat : String) : Bool := (strFindSub pat.data s.data).isSome

/-- Guidance text appended by `lkm_unload` on final failure
(lkm.cpp line 348). -/
def unloadGuidance : String :=
  " (module may still be busy; stop related mounts/processes or reboot)"

/-- Environment of one `lkm_unload` invocation. `isLoaded` feeds both the
`lkm_is_loaded()` guard and the `HymoFS::is_available()` quiescence guard
(the same probe, lkm.cpp lines 233-235); `deleteRes i` is the outcome of
the i-th `delete_module` attempt, `rmmodRc` the `std::system` result of
the rmmod fallback. -/
structure UnloadEnv where
  isLoaded : Bool
  clearRulesOk : Bool
  deleteRes : Nat → SyscallRes
  rmmodRc : Option Nat

/-- Quiescence events run before the removal attempts
(lkm.cpp lines 321-331). -/
def unloadPre : List SysEvent :=
  [.hymoSetEnabled false, .hymoClearRules, .hymoReleaseConnection, .sleepMs 120]

/-- Embedding of `lkm_unload` (lkm.cpp lines 315-351). `prevErr` is
`g_lkm_last_error` at entry, overwritten by the first statement.
Faithful sequence: idempotent early return, quiescence (disable hooks,
clear rules recording a best-effort error, release the session, sleep),
the 5-attempt delete loop, the rmmod fallback, and the guidance suffix
appended when the final error mentions delete_module or rmmod. -/
def lkm_unload (prevErr : String) (env : UnloadEnv) : OpResult :=
  -- set_lkm_last_error("")
  let _ := prevErr
  if env.isLoaded = false then { ok := true, lastError := "", trace := [] }
  else
    let err0 := if env.clearRulesOk then ""
      else "failed to clear HymoFS rules before unload"
    let la := unloadAttempts env.deleteRes err0 0 5
    if la.1 then { ok := true, lastError := la.2.1, trace := unloadPre ++ la.2.2 }
    else
      let rm := unload_module_via_rmmod env.rmmodRc la.2.1
      let tr := unloadPre ++ la.2.2 ++ [.execRmmod "hymofs_lkm"]
      if rm.1 then { ok := true, lastError := rm.2, trace := tr }
      else
        let finalErr :=
          if strContains rm.2 "delete_module" || strContains rm.2 "rmmod" then
            rm.2 ++ unloadGuidance
          else rm.2
        { ok := false, lastError := finalErr, trace := tr }

/-- Embedding of `read_file_first_line` (lkm.cpp lines 154-161) over an
optional file content: a missing file or a file with no line yields the
empty string. -/
def read_file_first_line (file : Option (List String)) : String :=
  match file with
  | none => ""
  | some [] => ""
  | some (l :: _) => l

/-- Embedding of `lkm_get_autoload` (lkm.cpp lines 359-364) as a function
of the first line read from the autoload file. -/
def lkm_get_autoload (v : String) : Bool :=
  if v = "" then true
  else v == "1" || v == "on" || v == "true"

/-- Trace of `k` busy delete attempts: each `delete_module` call followed
by the 120ms backoff sleep. -/
def busySeq : Nat → List SysEvent
  | 0 => []
  | n + 1 => .deleteModule "hymofs_lkm" :: .sleepMs 120 :: busySeq n

/-- Recognizer for `delete_module` events. -/
def isDeleteEv : SysEvent → Bool
  | .deleteModule _ => true
  | _ => false

/-- Recognizer for rmmod invocations. -/
def isRmmodEv : SysEvent → Bool
  | .execRmmod _ => true
  | _ => false

/-- Number of `delete_module` syscalls in a trace. -/
def countDelete (tr : List SysEvent) : Nat := tr.countP isDeleteEv

/-- Number of external rmmod invocations in a trace. -/
def countRmmod (tr : List SysEvent) : Nat := tr.countP isRmmodEv

/-- Status enum of `HymoFS::check_status` (src/unnamed/part_000 line 12). -/
inductive HymoFSStatus
  | Available | NotPresent | KernelTooOld | ModuleTooOld
deriving DecidableEq, Repr

/-- State of the availability/protocol status cache. -/
structure CacheState where
  cached : Option HymoFSStatus
deriving DecidableEq, Repr

/-- Modelled from the spec: the caching behaviour of
`HymoFS::check_status` is declared in src/unnamed/part_000 but
implemented in hymofs.cpp, which is not under src. Spec 4.7: the probe
runs "only when the cache is empty or has been explicitly invalidated";
`probe` is the classification the kernel probe would report now. -/
def check_status (probe : HymoFSStatus) (st : CacheState) :
    HymoFSStatus × CacheState :=
  match st.cached with
  | some s => (s, st)
  | none => (probe, { cached := some probe })

/-- Modelled from the spec: `HymoFS::invalidate_status_cache`, declared
in src/unnamed/part_000 lines 56-57 ("Invalidate status cache so next
check_status() re-queries (e.g. after LKM load)") and implemented
outside src; it empties the cache. -/
def invalidate_status_cache (_st : CacheState) : CacheState :=
  { cached := none }

/-- Modelled from the spec: the load flow around `lkm_load` — spec 4.7,
"`Loader.load()` always invalidates after a successful load". The call
site of `invalidate_status_cache` is not under src; this composition
follows the quoted sentence: run `lkm_load`, then invalidate the cache
exactly when it returned success. -/
def load_and_refresh_cache (prevErr : String) (env : LoadEnv) (st : CacheState) :
    OpResult × CacheState :=
  let r := lkm_load prevErr env
  (r, if r.ok then invalidate_status_cache st else st)

/-- Witness environment for C1: the probe reports the module loaded; the
other fields are arbitrary. -/
def envC1w : LoadEnv :=
  { isLoaded := true, kmiOverride := "", kernelRelease := [],
    ensureBaseDirOk := true, mkstempRes := none, copyAssetOk := false,
    legacyExists := false,
    finitEnv := { openOk := true, finitRes := .ok,
                  initEnv := { openOk := true, fstatOk := true, mallocOk := true,
                               readOk := true, initRes := .ok } } }

/-- Witness environment for C2: busy failures on attempts 1-4 (indices
0-3), success on attempt 5. -/
def envC2w : UnloadEnv :=
  { isLoaded := true, clearRulesOk := true,
    deleteRes := fun i => if i < 4 then .err .EBUSY else .ok,
    rmmodRc := some 0 }

/-- Counterexample environment for C3: busy failures on all 5 attempts,
then rmmod exits with wait status 256 (exit code 1). -/
def envC3c : UnloadEnv :=
  { isLoaded := true, clearRulesOk := true,
    deleteRes := fun _ => .err .EBUSY, rmmodRc := some 256 }

/-- Witness environment for the amended C3: same busy failures, rmmod
exits cleanly (wait status 0). -/
def envC3w : UnloadEnv :=
  { isLoaded := true, clearRulesOk := true,
    deleteRes := fun _ => .err .EBUSY, rmmodRc := some 0 }

/-- Witness environment for C4: a load that succeeds immediately. -/
def envC4w : LoadEnv :=
  { isLoaded := true, kmiOverride := "", kernelRelease := [],
    ensureBaseDirOk := true, mkstempRes := none, copyAssetOk := false,
    legacyExists := false,
    finitEnv := { openOk := true, finitRes := .ok,
                  initEnv := { openOk := true, fstatOk := true, mallocOk := true,
                               readOk := true, initRes := .ok } } }

/-- Witness environment for C7: module not loaded, no override, kernel
release without a dot, no legacy image. -/
def envC7w : LoadEnv :=
  { isLoaded := false, kmiOverride := "", kernelRelease := "unknown".data,
    ensureBaseDirOk := true, mkstempRes := none, copyAssetOk := false,
    legacyExists := false,
    finitEnv := { openOk := true, finitRes := .ok,
                  initEnv := { openOk := true, fstatOk := true, mallocOk := true,
                               readOk := true, initRes := .ok } } }

/-- Counterexample environment for C8: the KMI override selects an
embedded asset, extraction succeeds, and `finit_module` fails with
`EPERM`, a failing path that never touches `g_lkm_last_error`. -/
def envC8c : LoadEnv :=
  { isLoaded := false, kmiOverride := "android12-5.10",
    kernelRelease := "5.10.101-android12-9-ab1234".data,
    ensureBaseDirOk := true, mkstempRes := some "/data/adb/hymofs/.lkm_Ab12Cd",
    copyAssetOk := true, legacyExists := false,
    finitEnv := { openOk := true, finitRes := .err .EPERM,
                  initEnv := { openOk := true, fstatOk := true, mallocOk := true,
                               readOk := true, initRes := .ok } } }

/-- Witness environment for the amended C8: a failing unload (non-busy
delete error, rmmod exits 1). -/
def envC8w : UnloadEnv :=
  { isLoaded := true, clearRulesOk := true,
    deleteRes := fun _ => .err .EPERM, rmmodRc := some 256 }

/-- Witness environment for C10: delete_module fails at once with a
non-busy errno, the rmmod fallback exits cleanly. -/
def envC10w : UnloadEnv :=
  { isLoaded := true, clearRulesOk := true,
    deleteRes := fun _ => .err .EPERM, rmmodRc := some 0 }

lemma strFind_lt_length {c : Char} :
    ∀ {s : List Char} {i : Nat}, strFind c s = some i → i < s.length := by
  intro s
  induction s with
  | nil => intro i h; simp [strFind] at h
  | cons x xs ih =>
    intro i h
    by_cases hx : x = c
    · simp [strFind, hx] at h
      simp only [List.length_cons]
      omega
    · simp [strFind, hx] at h
      obtain ⟨j, hj, rfl⟩ := h
      simpa using Nat.succ_lt_succ (ih hj)

lemma strFind_decomp {c : Char} :
    ∀ {s : List Char} {i : Nat}, strFind c s = some i →
      s = s.take i ++ c :: s.drop (i + 1) := by
  intro s
  induction s with
  | nil => intro i h; simp [strFind] at h
  | cons x xs ih =>
    intro i h
    by_cases hx : x = c
    · simp [strFind, hx] at h
      subst h
      simp [hx]
    · simp [strFind, hx] at h
      obtain ⟨j, hj, rfl⟩ := h
      simpa using ih hj

lemma splitOnChar_ne_nil (c : Char) (s : List Char) : splitOnChar c s ≠ [] := by
  cases s with
  | nil => simp [splitOnChar]
  | cons x xs =>
    simp only [splitOnChar]
    cases splitOnChar c xs with
    | nil => simp
    | cons y ys =>
      by_cases hx : x = c <;> simp [hx]

lemma strFind_none_split {c : Char} :
    ∀ {s : List Char}, strFind c s = none → splitOnChar c s = [s] := by
  intro s
  induction s with
  | nil => intro _; rfl
  | cons x xs ih =>
    intro h
    by_cases hx : x = c
    · simp [strFind, hx] at h
    · simp [strFind, hx] at h
      have hxs := ih h
      simp [splitOnChar, hxs, hx]

lemma strFind_some_split {c : Char} :
    ∀ {s : List Char} {i : Nat}, strFind c s = some i →
      splitOnChar c s = s.take i :: splitOnChar c (s.drop (i + 1)) := by
  intro s
  induction s with
  | nil => intro i h; simp [strFind] at h
  | cons x xs ih =>
    intro i h
    by_cases hx : x = c
    · simp [strFind, hx] at h
      subst h
      simp only [splitOnChar]
      cases hxs : splitOnChar c xs with
      | nil => exact absurd hxs (splitOnChar_ne_nil c xs)
      | cons y ys => simp [hx, ← hxs]
    · simp [strFind, hx] at h
      obtain ⟨j, hj, rfl⟩ := h
      have hxs := ih hj
      simp only [splitOnChar, hxs]
      simp [hx]

lemma take_to_second_sep {c : Char} {s : List Char} {d1 : Nat}
    (h : strFind c s = some d1) :
    s.take ((strFindFrom c s (d1 + 1)).getD s.length) = firstTwoSepComponents c s := by
  have hd := strFind_decomp h
  have hlt := strFind_lt_length h
  have hsplit := strFind_some_split h
  have hlen : (s.take d1).length = d1 := by
    simp [List.length_take]
    omega
  cases h2 : strFind c (s.drop (d1 + 1)) with
  | none =>
    have hsp2 := strFind_none_split h2
    simp only [strFindFrom, h2, Option.map_none', Option.getD_none]
    rw [List.take_length, firstTwoSepComponents, hsplit, hsp2]
    exact hd
  | some j =>
    have hsp2 := strFind_some_split h2
    simp only [strFindFrom, h2, Option.map_some', Option.getD_some]
    rw [firstTwoSepComponents, hsplit, hsp2]
    have harr : j + (d1 + 1) = (s.take d1).length + (j + 1) := by omega
    calc s.take (j + (d1 + 1))
        = (s.take d1 ++ c :: s.drop (d1 + 1)).take ((s.take d1).length + (j + 1)) := by
          rw [← hd, harr]
      _ = s.take d1 ++ (c :: s.drop (d1 + 1)).take (j + 1) := List.take_append (j + 1)
      _ = s.take d1 ++ c :: (s.drop (d1 + 1)).take j := by simp

/-- Claim C6: for every kernel release string, the resolved KMI is either
empty or `android<ver>-<major.minor>` where `major.minor` is exactly the
first two dot-separated components of the release rejoined with a dot. -/
theorem claim_C6_kmi_shape (s : List Char) :
    get_current_kmi s = [] ∨
    ∃ ver, get_current_kmi s =
      "android".data ++ ver ++ '-' :: firstTwoSepComponents '.' s := by
  unfold get_current_kmi
  cases h1 : strFind '.' s with
  | none => exact Or.inl rfl
  | some d1 =>
    cases h2 : strFindSub ("-android".data) s with
    | none => exact Or.inl rfl
    | some p =>
      refine Or.inr ⟨(s.drop (p + 8)).take
        (((strFindFrom '-' s (p + 8)).getD s.length) - (p + 8)), ?_⟩
      dsimp only
      rw [take_to_second_sep h1]

/-- Claim C5: the ABI resolver maps `5.10.101-android12-9-ab1234` to
`android12-5.10`, and maps `5.10.101` (no android marker) to the empty
string. -/
theorem claim_C5_kmi_examples :
    get_current_kmi "5.10.101-android12-9-ab1234".data = "android12-5.10".data ∧
    get_current_kmi "5.10.101".data = [] := by
  constructor <;> decide

lemma countDelete_busySeq (k : Nat) : countDelete (busySeq k) = k := by
  induction k with
  | zero => rfl
  | succ n ih =>
    simp only [busySeq, countDelete, List.countP_cons] at ih ⊢
    simp [isDeleteEv, ih]

lemma countRmmod_busySeq (k : Nat) : countRmmod (busySeq k) = 0 := by
  induction k with
  | zero => rfl
  | succ n ih =>
    simp only [busySeq, countRmmod, List.countP_cons] at ih ⊢
    simp [isRmmodEv, ih]

lemma unloadAttempts_ok (d : Nat → SyscallRes) :
    ∀ (k fuel start : Nat) (err : String), k < fuel →
    (∀ i, i < k → isBusyRes (d (start + i)) = true) →
    d (start + k) = .ok →
    (unloadAttempts d err start fuel).1 = true ∧
    (unloadAttempts d err start fuel).2.2 =
      busySeq k ++ [.deleteModule "hymofs_lkm"] := by
  intro k
  induction k with
  | zero =>
    intro fuel start err hk _ hok
    match fuel, hk with
    | fuel + 1, _ =>
      rw [Nat.add_zero] at hok
      simp [unloadAttempts, hok, busySeq]
  | succ n ih =>
    intro fuel start err hk hbusy hok
    match fuel, hk with
    | fuel + 1, hk =>
      have hb0 : isBusyRes (d start) = true := by simpa using hbusy 0 (by omega)
      cases hds : d start with
      | ok => rw [hds] at hb0; simp [isBusyRes] at hb0
      | err e =>
        rw [hds] at hb0
        have hbe : isBusyErrno e = true := hb0
        have hbusyRest : ∀ i, i < n → isBusyRes (d (start + 1 + i)) = true := by
          intro i hi
          have := hbusy (i + 1) (by omega)
          rwa [show start + (i + 1) = start + 1 + i by omega] at this
        have hokRest : d (start + 1 + n) = .ok := by
          rwa [show start + (n + 1) = start + 1 + n by omega] at hok
        have hrest := ih fuel (start + 1) (deleteErrMsg e) (by omega) hbusyRest hokRest
        simp [unloadAttempts, hds, hbe, hrest.1, hrest.2, busySeq]

lemma unloadAttempts_stop (d : Nat → SyscallRes) :
    ∀ (j fuel start : Nat) (err : String) (e : Errno), j < fuel →
    (∀ i, i < j → isBusyRes (d (start + i)) = true) →
    d (start + j) = .err e → isBusyErrno e = false →
    unloadAttempts d err start fuel =
      (false, deleteErrMsg e, busySeq j ++ [.deleteModule "hymofs_lkm"]) := by
  intro j
  induction j with
  | zero =>
    intro fuel start err e hj _ he hnb
    match fuel, hj with
    | fuel + 1, _ =>
      rw [Nat.add_zero] at he
      simp [unloadAttempts, he, hnb, busySeq]
  | succ n ih =>
    intro fuel start err e hj hbusy he hnb
    match fuel, hj with
    | fuel + 1, hj =>
      have hb0 : isBusyRes (d start) = true := by simpa using hbusy 0 (by omega)
      cases hds : d start with
      | ok => rw [hds] at hb0; simp [isBusyRes] at hb0
      | err e0 =>
        rw [hds] at hb0
        have hbe : isBusyErrno e0 = true := hb0
        have hbusyRest : ∀ i, i < n → isBusyRes (d (start + 1 + i)) = true := by
          intro i hi
          have := hbusy (i + 1) (by omega)
          rwa [show start + (i + 1) = start + 1 + i by omega] at this
        have heRest : d (start + 1 + n) = .err e := by
          rwa [show start + (n + 1) = start + 1 + n by omega] at he
        have hrest := ih fuel (start + 1) (deleteErrMsg e0) e (by omega) hbusyRest heRest hnb
        simp [unloadAttempts, hds, hbe, hrest, busySeq]

lemma unloadAttempts_allBusy (d : Nat → SyscallRes) :
    ∀ (fuel start : Nat) (err : String),
    (∀ i, i < fuel → isBusyRes (d (start + i)) = true) →
    (unloadAttempts d err start fuel).1 = false ∧
    (unloadAttempts d err start fuel).2.2 = busySeq fuel := by
  intro fuel
  induction fuel with
  | zero => intro start err _; simp [unloadAttempts, busySeq]
  | succ n ih =>
    intro start err hbusy
    have hb0 : isBusyRes (d start) = true := by simpa using hbusy 0 (by omega)
    cases hds : d start with
    | ok => rw [hds] at hb0; simp [isBusyRes] at hb0
    | err e =>
      rw [hds] at hb0
      have hbe : isBusyErrno e = true := hb0
      have hbusyRest : ∀ i, i < n → isBusyRes (d (start + 1 + i)) = true := by
        intro i hi
        have := hbusy (i + 1) (by omega)
        rwa [show start + (i + 1) = start + 1 + i by omega] at this
      have hrest := ih (start + 1) (deleteErrMsg e) hbusyRest
      simp [unloadAttempts, hds, hbe, hrest.1, hrest.2, busySeq]

lemma unloadAttempts_count_le (d : Nat → SyscallRes) :
    ∀ (fuel start : Nat) (err : String),
    countDelete (unloadAttempts d err start fuel).2.2 ≤ fuel := by
  intro fuel
  induction fuel with
  | zero => intro start err; simp [unloadAttempts, countDelete]
  | succ n ih =>
    intro start err
    cases hds : d start with
    | ok => simp [unloadAttempts, hds, countDelete, List.countP_cons, isDeleteEv]
    | err e =>
      by_cases hbe : isBusyErrno e = true
      · have := ih (start + 1) (deleteErrMsg e)
        simp only [unloadAttempts, hds, hbe, if_true, countDelete,
          List.countP_cons] at this ⊢
        simp [isDeleteEv]
        omega
      · simp only [Bool.not_eq_true] at hbe
        simp [unloadAttempts, hds, hbe, countDelete, List.countP_cons, isDeleteEv]

lemma isPrefixOf_append_right (p : List Char) :
    ∀ (s t : List Char), p.isPrefixOf s = true → p.isPrefixOf (s ++ t) = true := by
  induction p with
  | nil => intro s t _; simp [List.isPrefixOf]
  | cons a as ih =>
    intro s t h
    cases s with
    | nil => simp [List.isPrefixOf] at h
    | cons b bs =>
      simp only [List.isPrefixOf, Bool.and_eq_true] at h
      simp only [List.cons_append, List.isPrefixOf, Bool.and_eq_true]
      exact ⟨h.1, ih bs t h.2⟩

lemma strFindSub_of_startsWith (pat s : List Char) (h : pat.isPrefixOf s = true) :
    strFindSub pat s = some 0 := by
  cases s with
  | nil =>
    cases pat with
    | nil => rfl
    | cons a as => simp [List.isPrefixOf] at h
  | cons x xs => simp [strFindSub, h]

lemma strContains_rmmodFailMsg (rc : Nat) :
    strContains (rmmodFailMsg rc) "rmmod" = true := by
  unfold strContains rmmodFailMsg
  rw [String.data_append, String.data_append, String.data_append,
    List.append_assoc, List.append_assoc]
  rw [strFindSub_of_startsWith]
  · rfl
  · exact isPrefixOf_append_right _ _ _ (by decide)

lemma append_ne_empty (s t : String) (hs : s.data ≠ []) : s ++ t ≠ "" := by
  intro h
  apply hs
  have h2 := congrArg String.data h
  rw [String.data_append] at h2
  exact (List.append_eq_nil.mp h2).1

lemma rmmodFailMsg_data_ne_nil (rc : Nat) : (rmmodFailMsg rc).data ≠ [] := by
  unfold rmmodFailMsg
  rw [String.data_append, String.data_append, String.data_append]
  intro h
  have h1 := (List.append_eq_nil.mp h).1
  have h2 := (List.append_eq_nil.mp h1).1
  have h3 := (List.append_eq_nil.mp h2).1
  exact absurd h3 (by decide)

lemma countDelete_append (a b : List SysEvent) :
    countDelete (a ++ b) = countDelete a + countDelete b :=
  List.countP_append _ _ _

lemma countRmmod_append (a b : List SysEvent) :
    countRmmod (a ++ b) = countRmmod a + countRmmod b :=
  List.countP_append _ _ _

lemma countDelete_pre : countDelete unloadPre = 0 := rfl

lemma countRmmod_pre : countRmmod unloadPre = 0 := rfl

lemma countDelete_del : countDelete [.deleteModule "hymofs_lkm"] = 1 := rfl

lemma countRmmod_del : countRmmod [.deleteModule "hymofs_lkm"] = 0 := rfl

lemma countDelete_exec : countDelete [.execRmmod "hymofs_lkm"] = 0 := rfl

lemma countRmmod_exec : countRmmod [.execRmmod "hymofs_lkm"] = 1 := rfl

lemma countDelete_del_exec :
    countDelete [.deleteModule "hymofs_lkm", .execRmmod "hymofs_lkm"] = 1 := rfl

lemma countRmmod_del_exec :
    countRmmod [.deleteModule "hymofs_lkm", .execRmmod "hymofs_lkm"] = 1 := rfl

/-- Claim C1: when the status probe reports the module loaded, `lkm_load`
returns success with no syscall-layer event and a cleared last-error, and
the immediately following second call (fed the last-error state left by
the first call) does the same — load is idempotent and the second call performs no
syscalls. -/
theorem claim_C1_load_idempotent (prevErr : String) (env : LoadEnv)
    (h : env.isLoaded = true) :
    lkm_load prevErr env = { ok := true, lastError := "", trace := [] } ∧
    lkm_load (lkm_load prevErr env).lastError env =
      { ok := true, lastError := "", trace := [] } := by
  constructor <;> simp [lkm_load, h]

/-- Witness for C1 at a concrete loaded environment. -/
theorem claim_C1_witness :
    lkm_load "" envC1w = { ok := true, lastError := "", trace := [] } ∧
    lkm_load (lkm_load "" envC1w).lastError envC1w =
      { ok := true, lastError := "", trace := [] } :=
  claim_C1_load_idempotent "" envC1w rfl

/-- Claim C2: `lkm_unload` performs at most 5 `delete_module` syscalls in
every environment; when the module is loaded and the first non-success is
a non-busy error at attempt `j`, exactly `j+1` attempts are made; and
when attempts before `k < 5` fail busy and attempt `k` succeeds, unload
returns success, never invokes rmmod, and its trace is the quiescence
prefix, `k` delete/backoff-sleep pairs, and the final successful delete. -/
theorem claim_C2_unload_retry_protocol :
    (∀ prevErr env, countDelete (lkm_unload prevErr env).trace ≤ 5) ∧
    (∀ prevErr env j e, env.isLoaded = true → j < 5 →
      (∀ i, i < j → isBusyRes (env.deleteRes i) = true) →
      env.deleteRes j = .err e → isBusyErrno e = false →
      countDelete (lkm_unload prevErr env).trace = j + 1) ∧
    (∀ prevErr env k, env.isLoaded = true → k < 5 →
      (∀ i, i < k → isBusyRes (env.deleteRes i) = true) →
      env.deleteRes k = .ok →
      (lkm_unload prevErr env).ok = true ∧
      countRmmod (lkm_unload prevErr env).trace = 0 ∧
      (lkm_unload prevErr env).trace =
        unloadPre ++ busySeq k ++ [.deleteModule "hymofs_lkm"]) := by
  refine ⟨?_, ?_, ?_⟩
  · intro prevErr env
    by_cases hL : env.isLoaded = false
    · simp [lkm_unload, hL, countDelete]
    · have hL' : env.isLoaded = true := by
        revert hL; cases env.isLoaded <;> simp
      simp only [lkm_unload, hL', Bool.true_eq_false, if_false]
      generalize (if env.clearRulesOk = true then ""
        else "failed to clear HymoFS rules before unload") = e0
      have hle := unloadAttempts_count_le env.deleteRes 5 0 e0
      split
      · simp only [countDelete_append, countDelete_pre]
        omega
      · split <;>
        · simp only [countDelete_append, countDelete_pre, countDelete_exec]
          omega
  · intro prevErr env j e hL hj hbusy he hnb
    have h0 : ∀ i, i < j → isBusyRes (env.deleteRes (0 + i)) = true := by
      intro i hi; simpa using hbusy i hi
    have he0 : env.deleteRes (0 + j) = .err e := by simpa using he
    have hstop := unloadAttempts_stop env.deleteRes j 5 0
      (if env.clearRulesOk then "" else "failed to clear HymoFS rules before unload")
      e hj h0 he0 hnb
    simp only [lkm_unload, hL, Bool.true_eq_false, if_false, hstop]
    split
    · simp [countDelete_append, countDelete_pre, countDelete_del, countDelete_busySeq]
    · split <;>
      · simp [countDelete_append, countDelete_pre, countDelete_del_exec,
          countDelete_busySeq]
  · intro prevErr env k hL hk hbusy hok
    have h0 : ∀ i, i < k → isBusyRes (env.deleteRes (0 + i)) = true := by
      intro i hi; simpa using hbusy i hi
    have hok0 : env.deleteRes (0 + k) = .ok := by simpa using hok
    have ha := unloadAttempts_ok env.deleteRes k 5 0
      (if env.clearRulesOk then "" else "failed to clear HymoFS rules before unload")
      hk h0 hok0
    refine ⟨?_, ?_, ?_⟩
    · simp [lkm_unload, hL, ha.1]
    · simp [lkm_unload, hL, ha.1, ha.2, countRmmod_append, countRmmod_pre,
        countRmmod_del, countRmmod_busySeq]
    · simp [lkm_unload, hL, ha.1, ha.2, List.append_assoc]

/-- Witness for C2: busy failures on attempts 1-4 and success on attempt
5 yield success without the rmmod fallback. -/
theorem claim_C2_witness :
    (lkm_unload "" envC2w).ok = true ∧
    countRmmod (lkm_unload "" envC2w).trace = 0 ∧
    (lkm_unload "" envC2w).trace =
      unloadPre ++ busySeq 4 ++ [.deleteModule "hymofs_lkm"] :=
  claim_C2_unload_retry_protocol.2.2 "" envC2w 4 rfl (by omega)
    (fun i hi => by simp [envC2w, hi, isBusyRes, isBusyErrno])
    (by simp [envC2w])

set_option maxRecDepth 4096 in
/-- Counterexample to C3 as stated: with busy failures on all five
delete attempts and rmmod exiting with status 1 (wait status 256), the
overall unload fails but the retrievable last-error does NOT contain the
removal-syscall error detail — `set_lkm_last_error` overwrites, so only
the rmmod exit detail and the guidance remain. -/
theorem claim_C3_counterexample :
    (lkm_unload "" envC3c).ok = false ∧
    strContains (lkm_unload "" envC3c).lastError "delete_module" = false := by
  constructor <;> decide

/-- Amended C3: when all five removal-syscall attempts fail busy, a
successful external rmmod yields overall success; a failing rmmod
(non-zero exit) yields overall failure whose last-error is the external
exit detail of the external tool plus the user-facing guidance — the removal-syscall
error string has been overwritten by the rmmod error, not accumulated. -/
theorem claim_C3_rmmod_escalation (prevErr : String) (env : UnloadEnv)
    (hL : env.isLoaded = true)
    (hbusy : ∀ i, i < 5 → isBusyRes (env.deleteRes i) = true) :
    (∀ rc, env.rmmodRc = some rc → WIFEXITED rc = true → WEXITSTATUS rc = 0 →
      (lkm_unload prevErr env).ok = true) ∧
    (∀ rc, env.rmmodRc = some rc → WIFEXITED rc = true → WEXITSTATUS rc ≠ 0 →
      (lkm_unload prevErr env).ok = false ∧
      (lkm_unload prevErr env).lastError = rmmodFailMsg rc ++ unloadGuidance) := by
  have h0 : ∀ i, i < 5 → isBusyRes (env.deleteRes (0 + i)) = true := by
    intro i hi; simpa using hbusy i hi
  have hab := unloadAttempts_allBusy env.deleteRes 5 0
    (if env.clearRulesOk then "" else "failed to clear HymoFS rules before unload") h0
  constructor
  · intro rc hrc hW hZ
    simp [lkm_unload, hL, hab.1, unload_module_via_rmmod, hrc, hW, hZ]
  · intro rc hrc hW hZ
    have hrm : unload_module_via_rmmod env.rmmodRc
        (unloadAttempts env.deleteRes
          (if env.clearRulesOk then "" else "failed to clear HymoFS rules before unload")
          0 5).2.1 = (false, rmmodFailMsg rc) := by
      simp [unload_module_via_rmmod, hrc, hW, hZ]
    constructor
    · simp [lkm_unload, hL, hab.1, hrm, strContains_rmmodFailMsg]
    · simp [lkm_unload, hL, hab.1, hrm, strContains_rmmodFailMsg]

/-- Witness for the amended C3: all-busy failures followed by a clean
rmmod exit yield overall success. -/
theorem claim_C3_witness :
    (lkm_unload "" envC3w).ok = true :=
  (claim_C3_rmmod_escalation "" envC3w rfl (fun _ _ => rfl)).1 0 rfl rfl rfl

/-- Claim C4: after a successful `lkm_load`, the load flow invalidates
the status cache, so a previously cached `NotPresent` (which an
uncached `check_status` would keep returning, first conjunct) is
dropped, and the next `check_status` re-probes and can now report
`Available`. -/
theorem claim_C4_status_invalidation (prevErr : String) (env : LoadEnv)
    (st : CacheState) (hok : (lkm_load prevErr env).ok = true)
    (hst : st.cached = some .NotPresent) :
    (check_status .Available st).1 = .NotPresent ∧
    (load_and_refresh_cache prevErr env st).2.cached = none ∧
    (check_status .Available (load_and_refresh_cache prevErr env st).2).1 =
      .Available := by
  refine ⟨?_, ?_, ?_⟩ <;>
    simp [check_status, load_and_refresh_cache, invalidate_status_cache, hok, hst]

/-- Witness for C4 at a concrete environment and a cached NotPresent. -/
theorem claim_C4_witness :
    (check_status .Available ⟨some .NotPresent⟩).1 = .NotPresent ∧
    (load_and_refresh_cache "" envC4w ⟨some .NotPresent⟩).2.cached = none ∧
    (check_status .Available
      (load_and_refresh_cache "" envC4w ⟨some .NotPresent⟩).2).1 = .Available :=
  claim_C4_status_invalidation "" envC4w ⟨some .NotPresent⟩ rfl rfl

/-- Claim C7: with the module not loaded, no KMI override, a kernel
release on which KMI resolution yields the empty string, and no legacy
installed image, `lkm_load` fails with the ImageNotFound-class error
"no matching module found for " and an empty trace — no load syscall is
attempted. -/
theorem claim_C7_no_image (prevErr : String) (env : LoadEnv)
    (h1 : env.isLoaded = false) (h2 : env.kmiOverride = "")
    (h3 : get_current_kmi env.kernelRelease = [])
    (h4 : env.legacyExists = false) :
    lkm_load prevErr env =
      { ok := false, lastError := "no matching module found for ", trace := [] } := by
  have hmk : loadKmi env = "" := by
    rw [loadKmi, if_pos h2, h3]
  simp [lkm_load, h1, hmk, h4, String.append_empty]

/-- Witness for C7: kernel release `unknown` (no dot) with no override
and no legacy image. -/
theorem claim_C7_witness :
    lkm_load "" envC7w =
      { ok := false, lastError := "no matching module found for ", trace := [] } :=
  claim_C7_no_image "" envC7w rfl rfl (by decide) rfl

/-- Counterexample to C8 as stated: a load whose `finit_module` fails
with `EPERM` returns failure while the last-error string stays empty —
`load_module_via_finit` only logs and never updates the retrievable
last-error. -/
theorem claim_C8_counterexample :
    (lkm_load "seed" envC8c).ok = false ∧
    (lkm_load "seed" envC8c).lastError = "" := by
  constructor <;> rfl

/-- Amended C8: both operations overwrite the last-error with the empty
string at entry, so their results never depend on the previous value; a
failing `lkm_unload` always leaves a non-empty explanatory last-error;
but a failing `lkm_load` leaves either the "no matching module found"
message or — when the failure happens in the module-load syscall path —
the empty string. -/
theorem claim_C8_lastError_discipline :
    (∀ prevErr env, lkm_load prevErr env = lkm_load "" env) ∧
    (∀ prevErr env, lkm_unload prevErr env = lkm_unload "" env) ∧
    (∀ prevErr env, (lkm_unload prevErr env).ok = false →
      (lkm_unload prevErr env).lastError ≠ "") ∧
    (∀ prevErr env, (lkm_load prevErr env).ok = false →
      (lkm_load prevErr env).lastError =
        "no matching module found for " ++ loadKmi env ∨
      (lkm_load prevErr env).lastError = "") := by
  refine ⟨fun _ _ => rfl, fun _ _ => rfl, ?_, ?_⟩
  · intro prevErr env hfail
    by_cases hL : env.isLoaded = false
    · simp [lkm_unload, hL] at hfail
    · have hL' : env.isLoaded = true := by
        revert hL; cases env.isLoaded <;> simp
      by_cases hla : (unloadAttempts env.deleteRes
          (if env.clearRulesOk then "" else "failed to clear HymoFS rules before unload")
          0 5).1 = true
      · simp [lkm_unload, hL', hla] at hfail
      · cases hrc : env.rmmodRc with
        | none =>
          have hct : strContains "failed to exec rmmod for hymofs_lkm" "rmmod" = true := by
            decide
          simp only [lkm_unload, hL', Bool.true_eq_false, if_false, hla,
            unload_module_via_rmmod, hrc, hct, Bool.or_true, if_true,
            Bool.false_eq_true]
          decide
        | some rc =>
          by_cases hex : (WIFEXITED rc && (WEXITSTATUS rc == 0)) = true
          · simp [lkm_unload, hL', hla, unload_module_via_rmmod, hrc, hex] at hfail
          · simp only [lkm_unload, hL', Bool.true_eq_false, if_false, hla,
              unload_module_via_rmmod, hrc, hex, Bool.false_eq_true, if_true,
              strContains_rmmodFailMsg, Bool.or_true]
            exact append_ne_empty _ _ (rmmodFailMsg_data_ne_nil rc)
  · intro prevErr env _hfail
    by_cases hL : env.isLoaded = true
    · simp [lkm_load, hL]
    · have hL' : env.isLoaded = false := by
        revert hL; cases env.isLoaded <;> simp
      simp only [lkm_load, hL', Bool.false_eq_true, if_false]
      split
      · exact Or.inl rfl
      · exact Or.inr rfl

/-- Witness for the amended C8: a concrete failing unload has a
non-empty last-error. -/
theorem claim_C8_witness :
    (lkm_unload "" envC8w).lastError ≠ "" :=
  claim_C8_lastError_discipline.2.2.1 "" envC8w (by decide)

/-- Claim C9: when the autoload policy file is absent or yields no first
line, the read produces the empty string and `lkm_get_autoload` reads the
policy as enabled. -/
theorem claim_C9_autoload_default (file : Option (List String))
    (h : read_file_first_line file = "") :
    lkm_get_autoload (read_file_first_line file) = true := by
  rw [h]
  rfl

/-- Witness for C9: the file is absent. -/
theorem claim_C9_witness :
    read_file_first_line none = "" ∧
    lkm_get_autoload (read_file_first_line none) = true :=
  ⟨rfl, claim_C9_autoload_default none rfl⟩

/-- Claim C10: when attempt `j` of the removal syscall fails with a
non-busy errno (busy failures before it), `lkm_unload` stops retrying —
exactly `j+1` delete attempts — yet still invokes the external rmmod
fallback exactly once; and when that external tool exits cleanly, the
unload reports overall success despite the non-busy syscall error. -/
theorem claim_C10_nonbusy_still_falls_back (prevErr : String) (env : UnloadEnv)
    (j : Nat) (e : Errno) (hL : env.isLoaded = true) (hj : j < 5)
    (hbusy : ∀ i, i < j → isBusyRes (env.deleteRes i) = true)
    (he : env.deleteRes j = .err e) (hnb : isBusyErrno e = false) :
    countDelete (lkm_unload prevErr env).trace = j + 1 ∧
    countRmmod (lkm_unload prevErr env).trace = 1 ∧
    (∀ rc, env.rmmodRc = some rc → WIFEXITED rc = true → WEXITSTATUS rc = 0 →
      (lkm_unload prevErr env).ok = true) := by
  have h0 : ∀ i, i < j → isBusyRes (env.deleteRes (0 + i)) = true := by
    intro i hi; simpa using hbusy i hi
  have he0 : env.deleteRes (0 + j) = .err e := by simpa using he
  have hstop := unloadAttempts_stop env.deleteRes j 5 0
    (if env.clearRulesOk then "" else "failed to clear HymoFS rules before unload")
    e hj h0 he0 hnb
  refine ⟨?_, ?_, ?_⟩
  · simp only [lkm_unload, hL, Bool.true_eq_false, if_false, hstop]
    split
    · simp [countDelete_append, countDelete_pre, countDelete_del, countDelete_busySeq]
    · split <;>
      · simp [countDelete_append, countDelete_pre, countDelete_del_exec,
          countDelete_busySeq]
  · simp only [lkm_unload, hL, Bool.true_eq_false, if_false, hstop]
    split
    · simp at *
    · split <;>
      · simp [countRmmod_append, countRmmod_pre, countRmmod_del_exec,
          countRmmod_busySeq]
  · intro rc hrc hW hZ
    simp [lkm_unload, hL, hstop, unload_module_via_rmmod, hrc, hW, hZ]

/-- Witness for C10: an immediate `EPERM` from delete_module followed by
a clean rmmod exit. -/
theorem claim_C10_witness :
    countDelete (lkm_unload "" envC10w).trace = 1 ∧
    (lkm_unload "" envC10w).ok = true :=
  ⟨(claim_C10_nonbusy_still_falls_back "" envC10w 0 .EPERM rfl (by omega)
      (fun i hi => absurd hi (Nat.not_lt_zero i)) rfl rfl).1,
   (claim_C10_nonbusy_still_falls_back "" envC10w 0 .EPERM rfl (by omega)
      (fun i hi => absurd hi (Nat.not_lt_zero i)) rfl rfl).2.2 0 rfl rfl rfl⟩

end Hymo
